import Mathlib

/-!
# Verification of `download_site.py`

A shallow embedding of the sitemap downloader: the MD5-based artifact namer
(`url_to_filename`), the per-entry fetch engine (`process_entry` with its
skip check and retry loop), and the dispatch / persistence flow of `main`.

External effects (HTTP fetch, `time.strptime`/`time.mktime` parsing, the
Readability transform, the artifact file write, `time.time`) are modelled as
explicit oracles; Python exceptions become `Option` results (`none` = the
call raised), and Python truthiness of optional values is modelled exactly
(`None`, `0.0` and `""` are falsy).
-/

set_option autoImplicit false

namespace DownloadSite

/-! ## MD5 (the `hashlib.md5` used by `url_to_filename`) -/

/-- `2 ^ 32`, the word modulus of MD5. -/
def M32 : ℕ := 4294967296

/-- 32-bit left rotation of `x` by `s` (for `s < 32`). -/
def rotl32 (x s : ℕ) : ℕ :=
  Nat.lor ((x * 2 ^ s) % M32) ((x % M32) / 2 ^ (32 - s))

/-- The MD5 round mixing function: F, G, H, I depending on the round index. -/
def md5F (i b c d : ℕ) : ℕ :=
  if i < 16 then Nat.lor (Nat.land b c) (Nat.land (Nat.xor b 4294967295) d)
  else if i < 32 then Nat.lor (Nat.land d b) (Nat.land (Nat.xor d 4294967295) c)
  else if i < 48 then Nat.xor (Nat.xor b c) d
  else Nat.xor c (Nat.lor b (Nat.xor d 4294967295))

/-- The MD5 message-word index schedule. -/
def md5G (i : ℕ) : ℕ :=
  if i < 16 then i
  else if i < 32 then (5 * i + 1) % 16
  else if i < 48 then (3 * i + 5) % 16
  else (7 * i) % 16

/-- The MD5 sine-derived round constants. -/
def md5K : List ℕ :=
  [0xd76aa478, 0xe8c7b756, 0x242070db, 0xc1bdceee,
   0xf57c0faf, 0x4787c62a, 0xa8304613, 0xfd469501,
   0x698098d8, 0x8b44f7af, 0xffff5bb1, 0x895cd7be,
   0x6b901122, 0xfd987193, 0xa679438e, 0x49b40821,
   0xf61e2562, 0xc040b340, 0x265e5a51, 0xe9b6c7aa,
   0xd62f105d, 0x02441453, 0xd8a1e681, 0xe7d3fbc8,
   0x21e1cde6, 0xc33707d6, 0xf4d50d87, 0x455a14ed,
   0xa9e3e905, 0xfcefa3f8, 0x676f02d9, 0x8d2a4c8a,
   0xfffa3942, 0x8771f681, 0x6d9d6122, 0xfde5380c,
   0xa4beea44, 0x4bdecfa9, 0xf6bb4b60, 0xbebfbc70,
   0x289b7ec6, 0xeaa127fa, 0xd4ef3085, 0x04881d05,
   0xd9d4d039, 0xe6db99e5, 0x1fa27cf8, 0xc4ac5665,
   0xf4292244, 0x432aff97, 0xab9423a7, 0xfc93a039,
   0x655b59c3, 0x8f0ccc92, 0xffeff47d, 0x85845dd1,
   0x6fa87e4f, 0xfe2ce6e0, 0xa3014314, 0x4e0811a1,
   0xf7537e82, 0xbd3af235, 0x2ad7d2bb, 0xeb86d391]

/-- The MD5 per-round left-rotation amounts. -/
def md5S : List ℕ :=
  [7, 12, 17, 22, 7, 12, 17, 22, 7, 12, 17, 22, 7, 12, 17, 22,
   5, 9, 14, 20, 5, 9, 14, 20, 5, 9, 14, 20, 5, 9, 14, 20,
   4, 11, 16, 23, 4, 11, 16, 23, 4, 11, 16, 23, 4, 11, 16, 23,
   6, 10, 15, 21, 6, 10, 15, 21, 6, 10, 15, 21, 6, 10, 15, 21]

/-- Little-endian 32-bit word `j` of a 64-byte chunk. -/
def leWord (chunk : List ℕ) (j : ℕ) : ℕ :=
  chunk.getD (4 * j) 0 + 256 * chunk.getD (4 * j + 1) 0 +
    65536 * chunk.getD (4 * j + 2) 0 + 16777216 * chunk.getD (4 * j + 3) 0

/-- The 64 MD5 rounds on one chunk; `fuel` rounds remain, `i` is the round index. -/
def md5Loop (chunk : List ℕ) : ℕ → ℕ → ℕ × ℕ × ℕ × ℕ → ℕ × ℕ × ℕ × ℕ
  | _, 0, s => s
  | i, fuel + 1, (a, b, c, d) =>
    let f := (md5F i b c d + a + md5K.getD i 0 + leWord chunk (md5G i)) % M32
    md5Loop chunk (i + 1) fuel (d, (b + rotl32 f (md5S.getD i 0)) % M32, b, c)

/-- Split a byte list into successive 64-byte chunks (`fuel` bounds the
number of chunks; `fuel = length` always suffices). -/
def splitChunks : ℕ → List ℕ → List (List ℕ)
  | 0, _ => []
  | _, [] => []
  | fuel + 1, x :: rest => (x :: rest).take 64 :: splitChunks fuel ((x :: rest).drop 64)

/-- Process the 64-byte chunks in order, accumulating the MD5 state. -/
def md5Fold (s : ℕ × ℕ × ℕ × ℕ) : List (List ℕ) → ℕ × ℕ × ℕ × ℕ
  | [] => s
  | c :: cs =>
    let (a, b, c2, d) := md5Loop c 0 64 s
    md5Fold ((s.1 + a) % M32, (s.2.1 + b) % M32, (s.2.2.1 + c2) % M32, (s.2.2.2 + d) % M32) cs

/-- Process a padded message 64 bytes at a time, accumulating the state. -/
def md5Chunks (s : ℕ × ℕ × ℕ × ℕ) (msg : List ℕ) : ℕ × ℕ × ℕ × ℕ :=
  md5Fold s (splitChunks msg.length msg)

/-- Little-endian bytes of a 32-bit word. -/
def le4 (n : ℕ) : List ℕ :=
  [n % 256, n / 256 % 256, n / 65536 % 256, n / 16777216 % 256]

/-- Little-endian bytes of a 64-bit quantity (the padded bit length). -/
def le8 (n : ℕ) : List ℕ :=
  [n % 256, n / 256 % 256, n / 65536 % 256, n / 16777216 % 256,
   n / 4294967296 % 256, n / 1099511627776 % 256,
   n / 281474976710656 % 256, n / 72057594037927936 % 256]

/-- MD5 padding: a `0x80` byte, zeros to 56 mod 64, then the bit length. -/
def md5Pad (msg : List ℕ) : List ℕ :=
  msg ++ [128] ++ List.replicate ((119 - msg.length % 64) % 64) 0 ++
    le8 ((8 * msg.length) % 18446744073709551616)

/-- The MD5 digest (16 bytes) of a byte string. -/
def md5 (msg : List ℕ) : List ℕ :=
  let s := md5Chunks (0x67452301, 0xefcdab89, 0x98badcfe, 0x10325476) (md5Pad msg)
  le4 s.1 ++ le4 s.2.1 ++ le4 s.2.2.1 ++ le4 s.2.2.2

/-- Lower-case hex digit for `n < 16`. -/
def hexDigit (n : ℕ) : Char :=
  if n < 10 then Char.ofNat (48 + n) else Char.ofNat (87 + n)

/-- `hexdigest`: two lower-case hex digits per byte. -/
def hexEncode (bs : List ℕ) : String :=
  String.mk (bs.flatMap fun b => [hexDigit (b / 16), hexDigit (b % 16)])

/-- UTF-8 encoding of one Unicode code point. -/
def utf8Char (c : ℕ) : List ℕ :=
  if c < 128 then [c]
  else if c < 2048 then [192 + c / 64, 128 + c % 64]
  else if c < 65536 then [224 + c / 4096, 128 + c / 64 % 64, 128 + c % 64]
  else [240 + c / 262144, 128 + c / 4096 % 64, 128 + c / 64 % 64, 128 + c % 64]

/-- `url.encode('utf-8')` as a byte list. -/
def strBytes (s : String) : List ℕ :=
  s.data.flatMap fun c => utf8Char c.toNat

/-- `url_to_filename`: `hashlib.md5(url.encode('utf-8')).hexdigest() + '.html'`. -/
def url_to_filename (url : String) : String :=
  hexEncode (md5 (strBytes url)) ++ ".html"

/-! ## The fetch engine (`process_entry`) -/

/-- Raw page bytes. -/
abbrev Content := List ℕ

/-- The classification returned by `process_entry`. -/
inductive Status where
  | skipped
  | saved
  | error
deriving DecidableEq, Repr

/-- The configuration reaching `process_entry` through `args` plus the
`HAVE_READABILITY` module flag. `retries` is `args.retries` (an `int`),
`last_run_time` is the value loaded by `load_last_run` (`None` = no file). -/
structure Config where
  force : Bool
  readability : Bool
  retries : Int
  last_run_time : Option ℚ
  haveReadability : Bool
deriving Repr

/-- Oracle for the external calls made while processing one entry.
`parse lm` is `time.mktime(time.strptime(lm, '%Y-%m-%dT%H:%M:%S%z'))`
(`none` = the call raised); `fetch k` is the result of the `k`-th
`fetch_url` call for this entry (`none` = it raised); `transform c` is
`Document(...).summary()` re-encoded (`none` = it raised); `writeOk k`
tells whether the artifact file write on the `k`-th attempt succeeds
(`false` = `open`/`write` raised). -/
structure Oracle where
  parse : String → Option ℚ
  fetch : ℕ → Option Content
  transform : Content → Option Content
  writeOk : ℕ → Bool

/-- The shared `url_map` dictionary, as a finite partial map. -/
abbrev UrlMap := String → Option String

/-- The empty dictionary. -/
def emptyMap : UrlMap := fun _ => none

/-- `url_map[url] = fname` (Python dict assignment). -/
def UrlMap.insert (m : UrlMap) (k v : String) : UrlMap :=
  fun u => if u = k then some v else m u

/-- What one `process_entry` call did: its returned status, the `url_map`
after the call (the Python function mutates the shared dict in place; the
embedding returns the updated map), the number of `fetch_url` calls it
performed, and the artifact writes `(filename, bytes)` that completed. -/
structure EntryResult where
  status : Status
  url_map : UrlMap
  fetchCalls : ℕ
  writes : List (String × Content)

/-- Python truthiness of the optional `args.last_run_time` float:
`None` and `0.0` are falsy. -/
def truthyTime : Option ℚ → Bool
  | none => false
  | some t => decide (t ≠ 0)

/-- Python truthiness of the optional `lastmod` string: `None` and `""`
are falsy. -/
def truthyStr : Option String → Bool
  | none => false
  | some s => decide (s ≠ "")

/-- The guard of lines 101–107: `not args.force and args.last_run_time and
lastmod`, then `ts = mktime(strptime(lastmod, ...)); ts <= args.last_run_time`
with any parse exception falling through (fail-open). -/
def skip_check (cfg : Config) (parse : String → Option ℚ) (lastmod : Option String) : Bool :=
  !cfg.force && truthyTime cfg.last_run_time && truthyStr lastmod &&
    match lastmod.bind parse with
    | some ts => decide (ts ≤ cfg.last_run_time.getD 0)
    | none => false

/-- The `while attempts > 0` retry loop (lines 109–135). `k` counts the
`fetch_url` calls already made; `fuel` is the current value of `attempts`.
Any exception in the attempt body (fetch or file write) is caught,
decrements `attempts`, and the loop re-enters from the fetch. -/
def attemptLoop (url : String) (cfg : Config) (o : Oracle) (url_map : UrlMap) :
    ℕ → ℕ → EntryResult
  | k, 0 => ⟨.error, url_map, k, []⟩
  | k, fuel + 1 =>
    match o.fetch k with
    | none => attemptLoop url cfg o url_map (k + 1) fuel
    | some content =>
      if cfg.readability && !cfg.haveReadability then
        ⟨.error, url_map, k + 1, []⟩
      else
        let content2 :=
          if cfg.readability then (o.transform content).getD content else content
        if o.writeOk k then
          ⟨.saved, url_map.insert url (url_to_filename url),
            k + 1, [(url_to_filename url, content2)]⟩
        else
          attemptLoop url cfg o url_map (k + 1) fuel

/-- `process_entry(url, lastmod, args, url_map)` (lines 95–135): the skip
check, then the retry loop with budget `args.retries`. -/
def process_entry (url : String) (lastmod : Option String) (cfg : Config)
    (o : Oracle) (url_map : UrlMap) : EntryResult :=
  if skip_check cfg o.parse lastmod then
    ⟨.skipped, url_map, 0, []⟩
  else
    attemptLoop url cfg o url_map 0 cfg.retries.toNat

/-! ## The dispatcher and persistence (`main`) -/

/-- Run `process_entry` over the scheduled entries (the worker pool joined
with `as_completed`; the embedding sequentialises the pool — entry `i` uses
oracle `os i`). Returns the `(url, status)` result stream, the final shared
`url_map`, and the total number of `fetch_url` calls made. -/
def runEntries (cfg : Config) (os : ℕ → Oracle) :
    List (String × Option String) → ℕ → UrlMap → ℕ →
    List (String × Status) × UrlMap × ℕ
  | [], _, m, g => ([], m, g)
  | (url, lm) :: rest, i, m, g =>
    let r := process_entry url lm cfg (os i) m
    let q := runEntries cfg os rest (i + 1) r.url_map (g + r.fetchCalls)
    ((url, r.status) :: q.1, q.2.1, q.2.2)

/-- Python list slicing `l[:n]` for an arbitrary `int` bound. -/
def pySlice {α : Type} (l : List α) (n : Int) : List α :=
  if 0 ≤ n then l.take n.toNat else l.take (l.length - (-n).toNat)

/-- Lines 144–145: `if args.limit: entries = entries[:args.limit]`
(`None` and `0` are falsy, so they leave the catalog untruncated). -/
def applyLimit {α : Type} (limit : Option Int) (entries : List α) : List α :=
  match limit with
  | none => entries
  | some n => if n ≠ 0 then pySlice entries n else entries

/-- A persistence action performed at the end of `main`:
`save_last_run` writes `{'last_run_time': time.time()}` and
`write_mapping` writes the URL→filename table. -/
inductive PersistAction where
  | runMarker (t : ℚ)
  | mapping (m : UrlMap)

/-- The observable result of `main` after a successful startup. -/
structure RunResult where
  statuses : List (String × Status)
  url_map : UrlMap
  totalFetches : ℕ
  persisted : List PersistAction

/-- `main` (lines 137–158) after a successful startup (sitemap fetched and
parsed into `entries`): apply the limit, process every entry, then always
call `save_last_run` followed by `write_mapping`. The clock oracle `clock j`
gives the value of `time.time()` when `j` network fetches have already
completed, so the run marker's timestamp `clock totalFetches` is sampled
after the last fetch of the run. -/
def main (cfg : Config) (limit : Option Int) (os : ℕ → Oracle) (clock : ℕ → ℚ)
    (entries : List (String × Option String)) : RunResult :=
  let q := runEntries cfg os (applyLimit limit entries) 0 emptyMap 0
  { statuses := q.1
    url_map := q.2.1
    totalFetches := q.2.2
    persisted := [.runMarker (clock q.2.2), .mapping q.2.1] }

example : url_to_filename "" = "d41d8cd98f00b204e9800998ecf8427e.html" := by decide

example : url_to_filename "abc" = "900150983cd24fb0d6963f7d28e17f72.html" := by decide

example : url_to_filename "http://a/1" = "f9b968e7dbf1f88ba0cf909900bebfd6.html" := by decide

/-! ## Basic lemmas about the retry loop -/

theorem attemptLoop_not_skipped (url : String) (cfg : Config) (o : Oracle) (m : UrlMap) :
    ∀ fuel k, (attemptLoop url cfg o m k fuel).status ≠ Status.skipped := by
  intro fuel
  induction fuel with
  | zero => intro k; simp [attemptLoop]
  | succ f ih =>
    intro k
    simp only [attemptLoop]
    cases h : o.fetch k with
    | none => exact ih (k + 1)
    | some c =>
      by_cases hb : (cfg.readability && !cfg.haveReadability) = true
      · simp [hb]
      · by_cases hw : o.writeOk k = true
        · simp [hb, hw]
        · simp only [hb, hw, if_neg, if_pos]
          simp only [Bool.not_eq_true] at hb hw
          simp [hb, hw]
          exact ih (k + 1)

theorem attemptLoop_spec (url : String) (cfg : Config) (o : Oracle) (m : UrlMap) :
    ∀ fuel k,
      (attemptLoop url cfg o m k fuel).status = Status.error ∧
        (attemptLoop url cfg o m k fuel).url_map = m ∧
        (attemptLoop url cfg o m k fuel).writes = [] ∨
      (attemptLoop url cfg o m k fuel).status = Status.saved ∧
        (attemptLoop url cfg o m k fuel).url_map = UrlMap.insert m url (url_to_filename url) ∧
        ∃ c, (attemptLoop url cfg o m k fuel).writes = [(url_to_filename url, c)] := by
  intro fuel
  induction fuel with
  | zero => intro k; simp [attemptLoop]
  | succ f ih =>
    intro k
    simp only [attemptLoop]
    cases h : o.fetch k with
    | none => exact ih (k + 1)
    | some c =>
      by_cases hb : (cfg.readability && !cfg.haveReadability) = true
      · simp [hb]
      · by_cases hw : o.writeOk k = true
        · simp only [Bool.not_eq_true] at hb
          simp [hb, hw]
        · simp only [Bool.not_eq_true] at hb hw
          simp [hb, hw]
          exact ih (k + 1)

theorem attemptLoop_calls_ge (url : String) (cfg : Config) (o : Oracle) (m : UrlMap) :
    ∀ fuel k, k ≤ (attemptLoop url cfg o m k fuel).fetchCalls := by
  intro fuel
  induction fuel with
  | zero => intro k; simp [attemptLoop]
  | succ f ih =>
    intro k
    simp only [attemptLoop]
    cases h : o.fetch k with
    | none => exact le_trans (Nat.le_succ k) (ih (k + 1))
    | some c =>
      by_cases hb : (cfg.readability && !cfg.haveReadability) = true
      · simp [hb]
      · by_cases hw : o.writeOk k = true
        · simp only [Bool.not_eq_true] at hb
          simp [hb, hw]
        · simp only [Bool.not_eq_true] at hb hw
          simp [hb, hw]
          exact le_trans (Nat.le_succ k) (ih (k + 1))

theorem attemptLoop_calls_pos (url : String) (cfg : Config) (o : Oracle) (m : UrlMap)
    (f k : ℕ) : k + 1 ≤ (attemptLoop url cfg o m k (f + 1)).fetchCalls := by
  simp only [attemptLoop]
  cases h : o.fetch k with
  | none => exact attemptLoop_calls_ge url cfg o m f (k + 1)
  | some c =>
    by_cases hb : (cfg.readability && !cfg.haveReadability) = true
    · simp [hb]
    · by_cases hw : o.writeOk k = true
      · simp only [Bool.not_eq_true] at hb
        simp [hb, hw]
      · simp only [Bool.not_eq_true] at hb hw
        simp [hb, hw]
        exact attemptLoop_calls_ge url cfg o m f (k + 1)

theorem attemptLoop_all_fail (url : String) (cfg : Config) (o : Oracle) (m : UrlMap)
    (hf : ∀ j, o.fetch j = none) :
    ∀ fuel k, attemptLoop url cfg o m k fuel = ⟨Status.error, m, k + fuel, []⟩ := by
  intro fuel
  induction fuel with
  | zero => intro k; simp [attemptLoop]
  | succ f ih =>
    intro k
    simp only [attemptLoop, hf k]
    rw [ih (k + 1)]
    have hk : k + 1 + f = k + (f + 1) := by omega
    rw [hk]

theorem attemptLoop_write_fail (url : String) (cfg : Config) (o : Oracle) (m : UrlMap)
    (hcap : cfg.readability = false ∨ cfg.haveReadability = true)
    (hf : ∀ j, (o.fetch j).isSome = true) (hw : ∀ j, o.writeOk j = false) :
    ∀ fuel k, attemptLoop url cfg o m k fuel = ⟨Status.error, m, k + fuel, []⟩ := by
  intro fuel
  induction fuel with
  | zero => intro k; simp [attemptLoop]
  | succ f ih =>
    intro k
    have hb : (cfg.readability && !cfg.haveReadability) = false := by
      rcases hcap with h | h <;> simp [h]
    simp only [attemptLoop]
    cases h : o.fetch k with
    | none =>
      have hk := hf k
      rw [h] at hk
      simp at hk
    | some c =>
      simp only [hb, Bool.false_eq_true, if_false, hw k, if_false]
      rw [ih (k + 1)]
      have hk : k + 1 + f = k + (f + 1) := by omega
      rw [hk]

/-! ## Basic lemmas about `process_entry` -/

theorem process_entry_skipped_iff (url : String) (lastmod : Option String) (cfg : Config)
    (o : Oracle) (m : UrlMap) :
    (process_entry url lastmod cfg o m).status = Status.skipped ↔
      skip_check cfg o.parse lastmod = true := by
  unfold process_entry
  by_cases h : skip_check cfg o.parse lastmod = true
  · simp [h]
  · simp only [h, if_neg, if_pos]
    simp only [Bool.not_eq_true] at h
    simp [h]
    exact attemptLoop_not_skipped url cfg o m cfg.retries.toNat 0

theorem process_entry_spec (url : String) (lastmod : Option String) (cfg : Config)
    (o : Oracle) (m : UrlMap) :
    ((process_entry url lastmod cfg o m).status = Status.saved →
      (process_entry url lastmod cfg o m).url_map =
        UrlMap.insert m url (url_to_filename url)) ∧
    ((process_entry url lastmod cfg o m).status ≠ Status.saved →
      (process_entry url lastmod cfg o m).url_map = m) := by
  unfold process_entry
  by_cases h : skip_check cfg o.parse lastmod = true
  · simp [h]
  · simp only [Bool.not_eq_true] at h
    simp only [h, Bool.false_eq_true, if_false]
    rcases attemptLoop_spec url cfg o m cfg.retries.toNat 0 with ⟨hs, hm, _⟩ | ⟨hs, hm, _⟩
    · constructor
      · intro hcontra; rw [hs] at hcontra; exact absurd hcontra (by simp)
      · intro _; exact hm
    · constructor
      · intro _; exact hm
      · intro hcontra; exact absurd hs hcontra

/-! ## Basic lemmas about the dispatcher -/

theorem runEntries_urls (cfg : Config) (os : ℕ → Oracle) :
    ∀ (es : List (String × Option String)) (i : ℕ) (m : UrlMap) (g : ℕ),
      ((runEntries cfg os es i m g).1).map Prod.fst = es.map Prod.fst := by
  intro es
  induction es with
  | nil => intro i m g; simp [runEntries]
  | cons e rest ih =>
    intro i m g
    obtain ⟨url, lm⟩ := e
    simp only [runEntries, List.map_cons]
    rw [ih]

theorem runEntries_length (cfg : Config) (os : ℕ → Oracle)
    (es : List (String × Option String)) (i : ℕ) (m : UrlMap) (g : ℕ) :
    ((runEntries cfg os es i m g).1).length = es.length := by
  have h := congrArg List.length (runEntries_urls cfg os es i m g)
  simpa using h

theorem runEntries_map_lookup (cfg : Config) (os : ℕ → Oracle) :
    ∀ (es : List (String × Option String)) (i : ℕ) (m : UrlMap) (g : ℕ) (u : String),
      ((runEntries cfg os es i m g).2.1) u =
        if (u, Status.saved) ∈ (runEntries cfg os es i m g).1
        then some (url_to_filename u) else m u := by
  intro es
  induction es with
  | nil => intro i m g u; simp [runEntries]
  | cons e rest ih =>
    intro i m g u
    obtain ⟨url, lm⟩ := e
    have hspec := process_entry_spec url lm cfg (os i) m
    simp only [runEntries]
    rw [ih]
    by_cases hmem : (u, Status.saved) ∈
        (runEntries cfg os rest (i + 1) (process_entry url lm cfg (os i) m).url_map
          (g + (process_entry url lm cfg (os i) m).fetchCalls)).1
    · simp [hmem, List.mem_cons]
    · by_cases hs : (process_entry url lm cfg (os i) m).status = Status.saved
      · rw [if_neg hmem]
        conv_lhs => rw [hspec.1 hs]
        by_cases hu : u = url
        · simp [List.mem_cons, hmem, hu, hs, UrlMap.insert]
        · simp [List.mem_cons, hmem, hu, UrlMap.insert, Prod.ext_iff]
      · rw [if_neg hmem]
        conv_lhs => rw [hspec.2 hs]
        have hneq : ¬ ((u, Status.saved) = (url, (process_entry url lm cfg (os i) m).status)) := by
          intro hcontra
          rw [Prod.ext_iff] at hcontra
          exact hs hcontra.2.symm
        simp [List.mem_cons, hmem, hneq]

/-! ## Lemmas about the artifact namer -/

theorem le4_lt (n : ℕ) : ∀ b ∈ le4 n, b < 256 := by
  intro b hb
  simp only [le4, List.mem_cons, List.not_mem_nil, or_false] at hb
  rcases hb with h | h | h | h <;> subst h <;> exact Nat.mod_lt _ (by norm_num)

theorem md5_lt (msg : List ℕ) : ∀ b ∈ md5 msg, b < 256 := by
  intro b hb
  simp only [md5, List.mem_append] at hb
  rcases hb with ((h | h) | h) | h <;> exact le4_lt _ b h

theorem md5_length (msg : List ℕ) : (md5 msg).length = 16 := by
  simp [md5, le4]

theorem hexDigit_inj : ∀ x < 16, ∀ y < 16, hexDigit x = hexDigit y → x = y := by decide

theorem hexPairs_inj : ∀ xs ys : List ℕ, (∀ b ∈ xs, b < 256) → (∀ b ∈ ys, b < 256) →
    (xs.flatMap fun b => [hexDigit (b / 16), hexDigit (b % 16)]) =
      (ys.flatMap fun b => [hexDigit (b / 16), hexDigit (b % 16)]) → xs = ys := by
  intro xs
  induction xs with
  | nil =>
    intro ys _ _ h
    cases ys with
    | nil => rfl
    | cons y ys => simp at h
  | cons x xs ih =>
    intro ys hx hy h
    cases ys with
    | nil => simp at h
    | cons y ys =>
      simp only [List.flatMap_cons, List.cons_append, List.nil_append] at h
      injection h with h1 h'
      injection h' with h2 h3
      have hx0 : x < 256 := hx x (List.mem_cons_self x xs)
      have hy0 : y < 256 := hy y (List.mem_cons_self y ys)
      have hdx : x / 16 < 16 := by omega
      have hdy : y / 16 < 16 := by omega
      have hmx : x % 16 < 16 := by omega
      have hmy : y % 16 < 16 := by omega
      have e1 : x / 16 = y / 16 := hexDigit_inj _ hdx _ hdy h1
      have e2 : x % 16 = y % 16 := hexDigit_inj _ hmx _ hmy h2
      have exy : x = y := by omega
      have hrest : xs = ys :=
        ih ys (fun b hb => hx b (List.mem_cons_of_mem x hb))
          (fun b hb => hy b (List.mem_cons_of_mem y hb)) h3
      rw [exy, hrest]

theorem url_to_filename_inj_iff (u v : String) :
    url_to_filename u = url_to_filename v ↔ md5 (strBytes u) = md5 (strBytes v) := by
  constructor
  · intro h
    unfold url_to_filename at h
    have hdata := congrArg String.data h
    rw [String.data_append, String.data_append] at hdata
    have hcancel := List.append_cancel_right hdata
    exact hexPairs_inj _ _ (md5_lt _) (md5_lt _) hcancel
  · intro h
    unfold url_to_filename
    rw [h]

theorem skip_check_iff (cfg : Config) (parse : String → Option ℚ) (lastmod : Option String)
    (h0 : parse "" = none) :
    skip_check cfg parse lastmod = true ↔
      cfg.force = false ∧ ∃ t, cfg.last_run_time = some t ∧ t ≠ 0 ∧
        ∃ lm ts, lastmod = some lm ∧ parse lm = some ts ∧ ts ≤ t := by
  unfold skip_check
  rcases hc : cfg.last_run_time with _ | t
  · simp [hc, truthyTime]
  · rcases lastmod with _ | lm
    · simp [truthyStr]
    · by_cases ht : t = 0
      · simp [hc, ht, truthyTime]
      · by_cases hlm : lm = ""
        · subst hlm
          simp [hc, ht, truthyStr, truthyTime, h0]
        · rcases hp : parse lm with _ | ts
          · simp [hc, ht, hlm, truthyStr, truthyTime, hp, Option.bind]
          · simp [hc, ht, hlm, truthyStr, truthyTime, hp, Option.bind]

/-- C1 (amended): `process_entry` classifies an entry as skipped — returning
with zero fetch attempts — if and only if force is not set, a previous run's
`last_run_time` exists **and is nonzero** (Python truthiness: a `0.0` run
marker is falsy and disables the skip check), the entry's `last_modified` is
present, parses successfully, and the parsed value is ≤ `last_run_time`.
In every other case (no previous run, zero run marker, absent or unparsable
`last_modified`, or a newer timestamp) the entry proceeds to fetching: with
a positive retry budget at least one fetch attempt is made (fail-open).
The hypothesis `h0` records that `time.strptime` of the empty string always
raises. -/
theorem C1_skip_classification (url : String) (lastmod : Option String) (cfg : Config)
    (o : Oracle) (m : UrlMap) (h0 : o.parse "" = none) :
    ((process_entry url lastmod cfg o m).status = Status.skipped ↔
      cfg.force = false ∧ ∃ t, cfg.last_run_time = some t ∧ t ≠ 0 ∧
        ∃ lm ts, lastmod = some lm ∧ o.parse lm = some ts ∧ ts ≤ t) ∧
    ((process_entry url lastmod cfg o m).status = Status.skipped →
      (process_entry url lastmod cfg o m).fetchCalls = 0) ∧
    ((process_entry url lastmod cfg o m).status ≠ Status.skipped → 1 ≤ cfg.retries →
      1 ≤ (process_entry url lastmod cfg o m).fetchCalls) := by
  refine ⟨?_, ?_, ?_⟩
  · rw [process_entry_skipped_iff]
    exact skip_check_iff cfg o.parse lastmod h0
  · intro hs
    rw [process_entry_skipped_iff] at hs
    unfold process_entry
    simp [hs]
  · intro hs hr
    have hs2 : skip_check cfg o.parse lastmod = false := by
      rcases hb : skip_check cfg o.parse lastmod with _ | _
      · rfl
      · exact absurd ((process_entry_skipped_iff url lastmod cfg o m).mpr hb) hs
    unfold process_entry
    simp only [hs2, Bool.false_eq_true, if_false]
    obtain ⟨f, hf⟩ : ∃ f, cfg.retries.toNat = f + 1 := ⟨cfg.retries.toNat - 1, by omega⟩
    rw [hf]
    exact attemptLoop_calls_pos url cfg o m f 0

/-- C1 witness: with `force` unset, a previous (nonzero) run time `2`, and a
`last_modified` that parses to `1 ≤ 2`, the entry is classified skipped. -/
theorem C1_skip_classification_witness :
    (process_entry "u" (some "2020-01-01T00:00:00+0000")
      ⟨false, false, 3, some 2, false⟩
      ⟨fun s => if s = "2020-01-01T00:00:00+0000" then some 1 else none,
       fun _ => none, fun c => some c, fun _ => false⟩ emptyMap).status = Status.skipped :=
  ((C1_skip_classification "u" (some "2020-01-01T00:00:00+0000")
      ⟨false, false, 3, some 2, false⟩
      ⟨fun s => if s = "2020-01-01T00:00:00+0000" then some 1 else none,
       fun _ => none, fun c => some c, fun _ => false⟩ emptyMap (by decide)).1).mpr
    ⟨rfl, 2, rfl, by norm_num, "2020-01-01T00:00:00+0000", 1, rfl, by decide, by norm_num⟩

/-- C1 counterexample to the claim as stated: with `force` unset, a previous
run marker that exists but equals `0.0` (Python-falsy), and a `last_modified`
that parses to `-1 ≤ 0` (a pre-epoch local time, as `time.mktime` can
return), the claim demands `skipped`, but the code never enters the skip
check (`args.last_run_time` is falsy) and proceeds to fetch: the entry ends
`error` after one fetch attempt. -/
theorem C1_counterexample :
    ((⟨false, false, 1, some 0, false⟩ : Config).force = false ∧
      (⟨false, false, 1, some 0, false⟩ : Config).last_run_time.isSome = true ∧
      (fun (_ : String) => some (-1 : ℚ)) "1969-12-31T23:59:59+0000" = some (-1 : ℚ) ∧
      ((-1 : ℚ) ≤ 0)) ∧
    (process_entry "u" (some "1969-12-31T23:59:59+0000") ⟨false, false, 1, some 0, false⟩
        ⟨fun _ => some (-1 : ℚ), fun _ => none, fun c => some c, fun _ => false⟩
        emptyMap).status = Status.error ∧
    (process_entry "u" (some "1969-12-31T23:59:59+0000") ⟨false, false, 1, some 0, false⟩
        ⟨fun _ => some (-1 : ℚ), fun _ => none, fun c => some c, fun _ => false⟩
        emptyMap).fetchCalls = 1 := by decide

/-- C2: an entry that reaches the retry loop and whose fetch raises on every
attempt, with retry budget `N ≥ 1`, performs exactly `N` fetch attempts in
total (the first attempt counts against the budget) and is classified
`error`, never `saved`. -/
theorem C2_retry_exhaustion (url : String) (lastmod : Option String) (cfg : Config)
    (o : Oracle) (m : UrlMap) (N : ℕ) (_hN : 1 ≤ N) (hret : cfg.retries = (N : ℤ))
    (hns : skip_check cfg o.parse lastmod = false)
    (hfail : ∀ j, o.fetch j = none) :
    (process_entry url lastmod cfg o m).fetchCalls = N ∧
    (process_entry url lastmod cfg o m).status = Status.error := by
  unfold process_entry
  simp only [hns, Bool.false_eq_true, if_false]
  rw [attemptLoop_all_fail url cfg o m hfail]
  simp [hret]

/-- C2 witness: with budget 3 and an always-raising fetch, exactly 3 fetch
attempts happen and the entry is classified `error`. -/
theorem C2_retry_exhaustion_witness :
    (process_entry "u" none ⟨true, false, 3, none, false⟩
      ⟨fun _ => none, fun _ => none, fun c => some c, fun _ => false⟩ emptyMap).fetchCalls = 3 ∧
    (process_entry "u" none ⟨true, false, 3, none, false⟩
      ⟨fun _ => none, fun _ => none, fun c => some c, fun _ => false⟩ emptyMap).status =
      Status.error :=
  C2_retry_exhaustion "u" none ⟨true, false, 3, none, false⟩
    ⟨fun _ => none, fun _ => none, fun c => some c, fun _ => false⟩ emptyMap 3
    (by norm_num) (by norm_num) (by decide) (fun _ => rfl)

/-- C3 counterexample to the claim as stated: `process_entry` itself mutates
the shared `UrlMapping` (line 130, `url_map[url] = fname`, runs inside the
worker). Starting from the empty mapping, a single `process_entry` call that
saves its entry returns a mapping that now contains the URL, while the
dispatch loop in `main` only logs and never adds entries. -/
theorem C3_counterexample :
    ((process_entry "u" none ⟨true, false, 1, none, false⟩
        ⟨fun _ => none, fun _ => some [104], fun c => some c, fun _ => true⟩
        emptyMap).url_map "u").isSome = true ∧
    (emptyMap "u").isSome = false := by decide

/-- C3 (amended): the mapping is updated by the worker itself: a
`process_entry` call that returns `saved` hands back the shared mapping with
exactly the binding `url ↦ url_to_filename url` added, and a call that
returns `skipped` or `error` hands it back unchanged; the aggregating
dispatch loop performs no mapping updates of its own. -/
theorem C3_worker_updates_mapping (url : String) (lastmod : Option String) (cfg : Config)
    (o : Oracle) (m : UrlMap) :
    ((process_entry url lastmod cfg o m).status = Status.saved →
      (process_entry url lastmod cfg o m).url_map =
        UrlMap.insert m url (url_to_filename url)) ∧
    ((process_entry url lastmod cfg o m).status ≠ Status.saved →
      (process_entry url lastmod cfg o m).url_map = m) :=
  process_entry_spec url lastmod cfg o m

/-- C3 witness: a saved entry inserts its binding; an erroring entry leaves
the mapping untouched. -/
theorem C3_worker_updates_mapping_witness :
    (process_entry "u" none ⟨true, false, 1, none, false⟩
        ⟨fun _ => none, fun _ => some [104], fun c => some c, fun _ => true⟩
        emptyMap).url_map = UrlMap.insert emptyMap "u" (url_to_filename "u") ∧
    (process_entry "u" none ⟨true, false, 1, none, false⟩
        ⟨fun _ => none, fun _ => none, fun c => some c, fun _ => false⟩
        emptyMap).url_map = emptyMap :=
  ⟨(C3_worker_updates_mapping "u" none ⟨true, false, 1, none, false⟩
      ⟨fun _ => none, fun _ => some [104], fun c => some c, fun _ => true⟩
      emptyMap).1 (by decide),
   (C3_worker_updates_mapping "u" none ⟨true, false, 1, none, false⟩
      ⟨fun _ => none, fun _ => none, fun c => some c, fun _ => false⟩
      emptyMap).2 (by decide)⟩

/-- C4: with readability requested and available, a fetch that succeeds on
the first attempt followed by a transformer that raises on that payload
still ends `saved`, and the artifact written is the original fetched bytes
unchanged — the transformer failure neither aborts the fetch nor
propagates. -/
theorem C4_transform_degrades (url : String) (lastmod : Option String) (cfg : Config)
    (o : Oracle) (m : UrlMap) (c : Content)
    (hread : cfg.readability = true) (hcap : cfg.haveReadability = true)
    (hns : skip_check cfg o.parse lastmod = false)
    (hfetch : o.fetch 0 = some c) (htr : o.transform c = none)
    (hw : o.writeOk 0 = true) (hr : 1 ≤ cfg.retries) :
    (process_entry url lastmod cfg o m).status = Status.saved ∧
    (process_entry url lastmod cfg o m).writes = [(url_to_filename url, c)] := by
  unfold process_entry
  simp only [hns, Bool.false_eq_true, if_false]
  obtain ⟨f, hf⟩ : ∃ f, cfg.retries.toNat = f + 1 := ⟨cfg.retries.toNat - 1, by omega⟩
  rw [hf]
  simp [attemptLoop, hfetch, hread, hcap, htr, hw]

/-- C4 witness: fetched bytes `[104, 105]`, raising transformer — the entry
is saved with exactly those bytes. -/
theorem C4_transform_degrades_witness :
    (process_entry "u" none ⟨true, true, 1, none, true⟩
        ⟨fun _ => none, fun _ => some [104, 105], fun _ => none, fun _ => true⟩
        emptyMap).status = Status.saved ∧
    (process_entry "u" none ⟨true, true, 1, none, true⟩
        ⟨fun _ => none, fun _ => some [104, 105], fun _ => none, fun _ => true⟩
        emptyMap).writes = [(url_to_filename "u", [104, 105])] :=
  C4_transform_degrades "u" none ⟨true, true, 1, none, true⟩
    ⟨fun _ => none, fun _ => some [104, 105], fun _ => none, fun _ => true⟩
    emptyMap [104, 105] rfl rfl (by decide) rfl rfl rfl (by norm_num)

/-- C5: with readability requested but the capability unavailable, an entry
whose fetch succeeds on its first attempt is classified `error` immediately
after that single fetch — one fetch call total, independent of the remaining
retry budget (no retrying of the configuration error), no artifact write,
and the mapping unchanged. The final conjunct shows the failure is per-entry
only: the dispatcher still produces one terminal status per scheduled entry,
whatever the outcomes. -/
theorem C5_capability_missing (url : String) (lastmod : Option String) (cfg : Config)
    (o : Oracle) (m : UrlMap) (c : Content)
    (hread : cfg.readability = true) (hcap : cfg.haveReadability = false)
    (hns : skip_check cfg o.parse lastmod = false)
    (hfetch : o.fetch 0 = some c) (hr : 1 ≤ cfg.retries) :
    (process_entry url lastmod cfg o m).status = Status.error ∧
    (process_entry url lastmod cfg o m).fetchCalls = 1 ∧
    (process_entry url lastmod cfg o m).writes = [] ∧
    (process_entry url lastmod cfg o m).url_map = m ∧
    ∀ (os : ℕ → Oracle) (es : List (String × Option String)) (i g : ℕ) (m2 : UrlMap),
      ((runEntries cfg os es i m2 g).1).length = es.length := by
  have hmain : process_entry url lastmod cfg o m = ⟨Status.error, m, 1, []⟩ := by
    unfold process_entry
    simp only [hns, Bool.false_eq_true, if_false]
    obtain ⟨f, hf⟩ : ∃ f, cfg.retries.toNat = f + 1 := ⟨cfg.retries.toNat - 1, by omega⟩
    rw [hf]
    simp [attemptLoop, hfetch, hread, hcap]
  rw [hmain]
  exact ⟨rfl, rfl, rfl, rfl, fun os es i g m2 => runEntries_length cfg os es i m2 g⟩

/-- C5 witness: budget 5, successful first fetch, readability requested but
missing — `error` after exactly one fetch, nothing written. -/
theorem C5_capability_missing_witness :
    (process_entry "u" none ⟨true, true, 5, none, false⟩
        ⟨fun _ => none, fun _ => some [1], fun c => some c, fun _ => true⟩
        emptyMap).status = Status.error ∧
    (process_entry "u" none ⟨true, true, 5, none, false⟩
        ⟨fun _ => none, fun _ => some [1], fun c => some c, fun _ => true⟩
        emptyMap).fetchCalls = 1 ∧
    (process_entry "u" none ⟨true, true, 5, none, false⟩
        ⟨fun _ => none, fun _ => some [1], fun c => some c, fun _ => true⟩
        emptyMap).writes = [] ∧
    (process_entry "u" none ⟨true, true, 5, none, false⟩
        ⟨fun _ => none, fun _ => some [1], fun c => some c, fun _ => true⟩
        emptyMap).url_map = emptyMap ∧
    ((runEntries ⟨true, true, 5, none, false⟩
        (fun _ => ⟨fun _ => none, fun _ => some [1], fun c => some c, fun _ => true⟩)
        [("a", none), ("b", none)] 0 emptyMap 0).1).length = 2 := by
  have h := C5_capability_missing "u" none ⟨true, true, 5, none, false⟩
    ⟨fun _ => none, fun _ => some [1], fun c => some c, fun _ => true⟩
    emptyMap [1] rfl rfl (by decide) rfl (by norm_num)
  exact ⟨h.1, h.2.1, h.2.2.1, h.2.2.2.1,
    h.2.2.2.2 (fun _ => ⟨fun _ => none, fun _ => some [1], fun c => some c, fun _ => true⟩)
      [("a", none), ("b", none)] 0 0 emptyMap⟩

/-- C6: after a run, the final `UrlMapping` contains an entry for a URL if
and only if some outcome for that URL in the status stream was `saved`
(skipped and erroring entries never appear), and a saved URL is bound to
exactly the single deterministic artifact filename `url_to_filename u`. -/
theorem C6_mapping_iff_saved (cfg : Config) (limit : Option Int) (os : ℕ → Oracle)
    (clock : ℕ → ℚ) (entries : List (String × Option String)) (u : String) :
    (main cfg limit os clock entries).url_map u =
      if (u, Status.saved) ∈ (main cfg limit os clock entries).statuses
      then some (url_to_filename u) else none := by
  show (runEntries cfg os (applyLimit limit entries) 0 emptyMap 0).2.1 u = _
  rw [runEntries_map_lookup]
  rfl

/-- C7: for every run that starts successfully, whatever the per-entry
outcomes (including all-`error` runs), `main` persists exactly the run
marker followed by the URL mapping, after producing a terminal status for
every scheduled entry; the marker's timestamp is the clock sampled at the
instant all fetching is over (`totalFetches` network calls have happened),
so under a monotone clock it is at least the clock value of any instant
during processing — never the run-start reading. -/
theorem C7_persist_after_processing (cfg : Config) (limit : Option Int) (os : ℕ → Oracle)
    (clock : ℕ → ℚ) (entries : List (String × Option String)) :
    (main cfg limit os clock entries).persisted =
      [PersistAction.runMarker (clock (main cfg limit os clock entries).totalFetches),
       PersistAction.mapping (main cfg limit os clock entries).url_map] ∧
    (main cfg limit os clock entries).statuses.length = (applyLimit limit entries).length ∧
    (Monotone clock → ∀ k, k ≤ (main cfg limit os clock entries).totalFetches →
      clock k ≤ clock (main cfg limit os clock entries).totalFetches) := by
  refine ⟨rfl, ?_, fun hm k hk => hm hk⟩
  show (runEntries cfg os (applyLimit limit entries) 0 emptyMap 0).1.length = _
  exact runEntries_length cfg os (applyLimit limit entries) 0 emptyMap 0

/-- C7 witness: a two-entry run whose fetches all fail still persists the
marker and the mapping, with the marker time read at the post-processing
instant. -/
theorem C7_persist_after_processing_witness :
    (main ⟨true, false, 1, none, false⟩ none
        (fun _ => ⟨fun _ => none, fun _ => none, fun c => some c, fun _ => false⟩)
        (fun n => (n : ℚ)) [("a", none), ("b", none)]).persisted =
      [PersistAction.runMarker ((fun n => (n : ℚ))
          (main ⟨true, false, 1, none, false⟩ none
            (fun _ => ⟨fun _ => none, fun _ => none, fun c => some c, fun _ => false⟩)
            (fun n => (n : ℚ)) [("a", none), ("b", none)]).totalFetches),
       PersistAction.mapping
          (main ⟨true, false, 1, none, false⟩ none
            (fun _ => ⟨fun _ => none, fun _ => none, fun c => some c, fun _ => false⟩)
            (fun n => (n : ℚ)) [("a", none), ("b", none)]).url_map] ∧
    (main ⟨true, false, 1, none, false⟩ none
        (fun _ => ⟨fun _ => none, fun _ => none, fun c => some c, fun _ => false⟩)
        (fun n => (n : ℚ)) [("a", none), ("b", none)]).statuses.length =
      (applyLimit none [("a", (none : Option String)), ("b", none)]).length ∧
    (fun n => (n : ℚ)) 0 ≤ (fun n => (n : ℚ))
      (main ⟨true, false, 1, none, false⟩ none
        (fun _ => ⟨fun _ => none, fun _ => none, fun c => some c, fun _ => false⟩)
        (fun n => (n : ℚ)) [("a", none), ("b", none)]).totalFetches := by
  have h := C7_persist_after_processing ⟨true, false, 1, none, false⟩ none
    (fun _ => ⟨fun _ => none, fun _ => none, fun c => some c, fun _ => false⟩)
    (fun n => (n : ℚ)) [("a", none), ("b", none)]
  exact ⟨h.1, h.2.1,
    h.2.2 (fun a b hab => by simpa using (Nat.cast_le (α := ℚ)).mpr hab) 0 (Nat.zero_le _)⟩

/-- C8: the artifact namer is a pure function of the URL: it is
deterministic, its output is the lower-case hex encoding of the MD5 digest
of the UTF-8 encoding of the URL followed by the fixed `.html` suffix, and
two URLs receive the same name exactly when their digests collide — so
distinct URLs get distinct names, hash collisions aside. -/
theorem C8_artifact_namer (u v : String) :
    url_to_filename u = url_to_filename u ∧
    url_to_filename u = hexEncode (md5 (strBytes u)) ++ ".html" ∧
    (url_to_filename u = url_to_filename v ↔ md5 (strBytes u) = md5 (strBytes v)) :=
  ⟨rfl, rfl, url_to_filename_inj_iff u v⟩

/-- C9 counterexample to the claim as stated: `limit = 0` is a configured
limit value, and front-N truncation would schedule `min 0 1 = 0` entries;
but `if args.limit:` treats `0` as falsy, so the catalog is not truncated
and the single entry is still processed. -/
theorem C9_counterexample :
    ((main ⟨true, false, 1, none, false⟩ (some 0)
        (fun _ => ⟨fun _ => none, fun _ => none, fun c => some c, fun _ => false⟩)
        (fun _ => 0) [("u", none)]).statuses).length = 1 ∧
    min (0 : ℕ) 1 = 0 := by decide

/-- C9 (amended): for every *positive* limit `n`, exactly the first
`min n (length)` catalog entries in parse order are scheduled and no others;
a limit of `0`, like an absent limit, is falsy and leaves the catalog
untruncated. -/
theorem C9_limit_truncation (cfg : Config) (os : ℕ → Oracle) (clock : ℕ → ℚ)
    (entries : List (String × Option String)) (n : Int) (hn : 0 < n) :
    (main cfg (some n) os clock entries).statuses.map Prod.fst =
      (entries.take n.toNat).map Prod.fst ∧
    (main cfg (some n) os clock entries).statuses.length = min n.toNat entries.length ∧
    (main cfg (some 0) os clock entries).statuses.map Prod.fst = entries.map Prod.fst ∧
    (main cfg none os clock entries).statuses.map Prod.fst = entries.map Prod.fst := by
  have h1 : applyLimit (some n) entries = entries.take n.toNat := by
    show (if n ≠ 0 then pySlice entries n else entries) = entries.take n.toNat
    rw [if_pos (show n ≠ 0 by omega)]
    unfold pySlice
    rw [if_pos (show (0 : Int) ≤ n by omega)]
  refine ⟨?_, ?_, ?_, ?_⟩
  · show (runEntries cfg os (applyLimit (some n) entries) 0 emptyMap 0).1.map Prod.fst = _
    rw [runEntries_urls, h1]
  · show (runEntries cfg os (applyLimit (some n) entries) 0 emptyMap 0).1.length = _
    rw [runEntries_length, h1, List.length_take]
  · show (runEntries cfg os (applyLimit (some 0) entries) 0 emptyMap 0).1.map Prod.fst = _
    rw [runEntries_urls]
    simp [applyLimit]
  · show (runEntries cfg os (applyLimit none entries) 0 emptyMap 0).1.map Prod.fst = _
    rw [runEntries_urls]
    rfl

/-- C9 witness: `limit = 1` on a two-entry catalog schedules only the first
entry. -/
theorem C9_limit_truncation_witness :
    (main ⟨true, false, 1, none, false⟩ (some 1)
        (fun _ => ⟨fun _ => none, fun _ => none, fun c => some c, fun _ => false⟩)
        (fun _ => 0) [("a", none), ("b", none)]).statuses.map Prod.fst =
      ([("a", none), ("b", none)].take (1 : Int).toNat).map
        (Prod.fst (α := String) (β := Option String)) ∧
    (main ⟨true, false, 1, none, false⟩ (some 1)
        (fun _ => ⟨fun _ => none, fun _ => none, fun c => some c, fun _ => false⟩)
        (fun _ => 0) [("a", none), ("b", none)]).statuses.length =
      min (1 : Int).toNat 2 := by
  have h := C9_limit_truncation ⟨true, false, 1, none, false⟩
    (fun _ => ⟨fun _ => none, fun _ => none, fun c => some c, fun _ => false⟩)
    (fun _ => 0) [("a", none), ("b", none)] 1 (by decide)
  exact ⟨h.1, h.2.1⟩

/-- C10: an entry whose fetch succeeds on every attempt but whose artifact
file write raises on every attempt consumes the whole retry budget: each
write failure eats one unit and the attempt restarts from the network fetch,
so with budget `N` exactly `N` fetches happen and the entry ends `error`
even though every fetch itself succeeded — with no completed write and the
mapping unchanged. -/
theorem C10_postfetch_failure (url : String) (lastmod : Option String) (cfg : Config)
    (o : Oracle) (m : UrlMap) (N : ℕ) (hret : cfg.retries = (N : ℤ))
    (hns : skip_check cfg o.parse lastmod = false)
    (hcap : cfg.readability = false ∨ cfg.haveReadability = true)
    (hfetch : ∀ j, (o.fetch j).isSome = true)
    (hw : ∀ j, o.writeOk j = false) :
    (process_entry url lastmod cfg o m).status = Status.error ∧
    (process_entry url lastmod cfg o m).fetchCalls = N ∧
    (process_entry url lastmod cfg o m).writes = [] ∧
    (process_entry url lastmod cfg o m).url_map = m := by
  unfold process_entry
  simp only [hns, Bool.false_eq_true, if_false]
  rw [attemptLoop_write_fail url cfg o m hcap hfetch hw]
  simp [hret]

/-- C10 witness: budget 2, fetch always succeeds, write always raises — two
fetches, final `error`, nothing written. -/
theorem C10_postfetch_failure_witness :
    (process_entry "u" none ⟨true, false, 2, none, false⟩
        ⟨fun _ => none, fun _ => some [104], fun c => some c, fun _ => false⟩
        emptyMap).status = Status.error ∧
    (process_entry "u" none ⟨true, false, 2, none, false⟩
        ⟨fun _ => none, fun _ => some [104], fun c => some c, fun _ => false⟩
        emptyMap).fetchCalls = 2 ∧
    (process_entry "u" none ⟨true, false, 2, none, false⟩
        ⟨fun _ => none, fun _ => some [104], fun c => some c, fun _ => false⟩
        emptyMap).writes = [] ∧
    (process_entry "u" none ⟨true, false, 2, none, false⟩
        ⟨fun _ => none, fun _ => some [104], fun c => some c, fun _ => false⟩
        emptyMap).url_map = emptyMap :=
  C10_postfetch_failure "u" none ⟨true, false, 2, none, false⟩
    ⟨fun _ => none, fun _ => some [104], fun c => some c, fun _ => false⟩
    emptyMap 2 (by norm_num) (by decide) (Or.inl rfl) (fun _ => rfl) (fun _ => rfl)

end DownloadSite
